import Mathlib

/-!
Shallow embedding of the scheduling-is-hard server core
(src/server/Guest.ts, src/server/Event.ts, src/server/routes.ts).

Durable-object storage is modelled as association lists over string keys
(JavaScript object semantics: unique keys, insertion order preserved,
updating an existing key keeps its position, a new key is appended).
Each Event durable object instance is addressed by one event id, so the
event-side storage triple `event:{id}` / `event:{id}:guests` /
`event:{id}:availability_cache` is modelled as one `EventState` record.
Fallible operations (`throw new Error(...)` in the source) return `Option`.
JavaScript numbers that carry the normalized heatmap fractions
(`count / respondedGuests`) are modelled as rationals.
-/

namespace Sched

/-- Association-list read, mirroring a JavaScript object property read
(`obj[key]`, `undefined` when absent). -/
def storeGet {α : Type} : List (String × α) → String → Option α
  | [], _ => none
  | (k', v) :: rest, k => if k' = k then some v else storeGet rest k

/-- Association-list write, mirroring `obj[key] = value`: an existing key is
updated in place, a new key is appended at the end. -/
def storePut {α : Type} : List (String × α) → String → α → List (String × α)
  | [], k, v => [(k, v)]
  | (k', v') :: rest, k, v =>
      if k' = k then (k, v) :: rest else (k', v') :: storePut rest k v

/-- Association-list removal, mirroring `delete obj[key]`. -/
def storeDelete {α : Type} : List (String × α) → String → List (String × α)
  | [], _ => []
  | (k', v') :: rest, k => if k' = k then rest else (k', v') :: storeDelete rest k

/-- Guest record (`GuestData` in Guest.ts / Event.ts).
`name` and `availability` are optional fields; `availability` is the
tri-state value: `none` = not yet responded (unset), `some []` =
responded "not available", `some dates` = responded with dates. -/
structure GuestData where
  id : String
  eventId : String
  name : Option String
  availability : Option (List String)
  createdAt : String
  updatedAt : String
  deriving DecidableEq, Repr

/-- The per-guest durable keyspace (`guest:{guestId}` records of Guest.ts). -/
abbrev GuestStore := List (String × GuestData)

/-- The fields of `Partial<GuestData>` that `Guest.updateGuest` reads:
`none` models an absent (`undefined`) field. -/
structure GuestUpdates where
  name : Option String
  availability : Option (List String)
  deriving DecidableEq, Repr

/-- JavaScript `a || b` on `string | undefined` values: `undefined` and the
empty string are falsy. -/
def jsOr (a b : Option String) : Option String :=
  match a with
  | some s => if s = "" then b else some s
  | none => b

/-- JavaScript `a || b` where `b` is a plain string. -/
def jsOrD (a : Option String) (b : String) : String :=
  match a with
  | some s => if s = "" then b else s
  | none => b

/-- Source `Guest.updateGuest(guestId, eventId, updates)`: create-or-merge write of
a guest record; returns the new store and the returned snapshot. -/
def updateGuest (store : GuestStore) (guestId eventId : String)
    (updates : GuestUpdates) (now : String) : GuestStore × GuestData :=
  let existingGuest := storeGet store guestId
  let guestData : GuestData := {
    id := guestId
    eventId := eventId
    name := jsOr updates.name (existingGuest.bind GuestData.name)
    availability :=
      match updates.availability with
      | some a => some a
      | none => existingGuest.bind GuestData.availability
    createdAt := jsOrD (existingGuest.map GuestData.createdAt) now
    updatedAt := now }
  (storePut store guestId guestData, guestData)

/-- Source `Guest.getGuest(guestId)`: `null` becomes `none`. -/
def getGuest (store : GuestStore) (guestId : String) : Option GuestData :=
  storeGet store guestId

/-- Source `Guest.updateAvailability(guestId, availability)`: `none` models the
thrown `Guest not found` error. -/
def updateAvailability (store : GuestStore) (guestId : String)
    (availability : List String) (now : String) : Option (GuestStore × GuestData) :=
  match storeGet store guestId with
  | none => none
  | some existingGuest =>
      let updatedGuest : GuestData :=
        { existingGuest with availability := some availability, updatedAt := now }
      some (storePut store guestId updatedGuest, updatedGuest)

/-- Source `Guest.updateName(guestId, name)`: `none` models the thrown error. -/
def updateName (store : GuestStore) (guestId name : String) (now : String) :
    Option (GuestStore × GuestData) :=
  match storeGet store guestId with
  | none => none
  | some existingGuest =>
      let updatedGuest : GuestData :=
        { existingGuest with name := some name, updatedAt := now }
      some (storePut store guestId updatedGuest, updatedGuest)

/-- Source `Guest.deleteGuest(guestId)`. -/
def deleteGuest (store : GuestStore) (guestId : String) : GuestStore :=
  storeDelete store guestId

/-- Event metadata record (`EventData` in Event.ts, key `event:{eventId}`). -/
structure EventData where
  id : String
  name : String
  description : String
  createdAt : String
  updatedAt : String
  hostGuestId : Option String
  deriving DecidableEq, Repr

/-- The availability cache record (key `event:{eventId}:availability_cache`).
The stored heatmap holds the normalized `count / respondedGuests` fractions
computed by `updateAggregateAvailability`. -/
structure CacheData where
  heatmap : List (String × ℚ)
  totalGuests : ℕ
  respondedGuests : ℕ
  lastUpdated : String
  deriving DecidableEq, Repr

/-- The storage of one Event durable-object instance: the metadata record,
the `event:{eventId}:guests` registry (which the source populates with full
`GuestData` values, not bare ids), and the availability cache. -/
structure EventState where
  eventData : Option EventData
  guests : List (String × GuestData)
  cache : Option CacheData
  deriving DecidableEq, Repr

/-- Source `EventAvailability` (the aggregate-read response shape). -/
structure EventAvailability where
  heatmap : List (String × ℚ)
  totalGuests : ℕ
  respondedGuests : ℕ
  deriving DecidableEq, Repr

/-- One fan-out read of a member guest's record. A guest id in `fail` models
a Guest-DO call that throws (caught and skipped by the source); a missing
record returns `null` and is likewise skipped, so both map to `none`. -/
def pollRead (store : GuestStore) (fail : List String) (guestId : String) :
    Option GuestData :=
  if guestId ∈ fail then none else storeGet store guestId

/-- The polled tri-state availability of a member guest. -/
def pollAvail (store : GuestStore) (fail : List String) (guestId : String) :
    Option (List String) :=
  (pollRead store fail guestId).bind GuestData.availability

/-- Source `heatmap[date] = (heatmap[date] || 0) + 1` on the raw-count heatmap. -/
def hmInc : List (String × ℕ) → String → List (String × ℕ)
  | [], date => [(date, 1)]
  | (k, v) :: rest, date =>
      if k = date then (k, v + 1) :: rest else (k, v) :: hmInc rest date

/-- Accumulator of the fan-out loop in `updateAggregateAvailability`. -/
structure AggAcc where
  heatmap : List (String × ℕ)
  responded : ℕ
  deriving DecidableEq, Repr

/-- One iteration of the fan-out loop: a guest whose read fails or whose
record is missing is skipped; a guest with defined availability counts
toward `respondedGuests` and each of its dates increments the heatmap. -/
def pollStep (store : GuestStore) (fail : List String) (acc : AggAcc)
    (guestId : String) : AggAcc :=
  match pollRead store fail guestId with
  | none => acc
  | some guestData =>
      match guestData.availability with
      | none => acc
      | some dates => ⟨dates.foldl hmInc acc.heatmap, acc.responded + 1⟩

/-- The "Convert counts to normalized 0-1 scale" step:
`respondedGuests > 0 ? count / respondedGuests : 0`. -/
def normalizeHm (h : List (String × ℕ)) (respondedGuests : ℕ) :
    List (String × ℚ) :=
  h.map fun p =>
    (p.1, if 0 < respondedGuests then (p.2 : ℚ) / (respondedGuests : ℚ) else 0)

/-- Source `Event.updateAggregateAvailability(eventId)`: polls every registry
member, skips failed reads, and writes the normalized heatmap together with
`totalGuests` (registry size) and `respondedGuests` to the cache. Returns
the state unchanged when the event record is missing. -/
def updateAggregateAvailability (es : EventState) (store : GuestStore)
    (fail : List String) (now : String) : EventState :=
  match es.eventData with
  | none => es
  | some _ =>
      let guestIds := es.guests.map Prod.fst
      let totalGuests := guestIds.length
      let acc := guestIds.foldl (pollStep store fail) ⟨[], 0⟩
      { es with
        cache := some
          ⟨normalizeHm acc.heatmap acc.responded, totalGuests, acc.responded, now⟩ }

/-- Source `CreateEventRequest` (name, description, hostName). -/
structure CreateEventRequest where
  name : String
  description : String
  hostName : Option String
  deriving DecidableEq, Repr

/-- Event descriptor returned by the event endpoints. -/
structure EventResponse where
  id : String
  name : String
  description : String
  url : String
  createdAt : String
  updatedAt : String
  hostGuestId : Option String
  deriving DecidableEq, Repr

/-- Source `GuestLink` returned by `generateGuestLink`. -/
structure GuestLink where
  guestId : String
  url : String
  deriving DecidableEq, Repr

/-- Source `Event.createEvent(eventId, request)`: writes the event metadata, writes
the host guest record into the Guest DO via `updateGuest`, stores the host
snapshot as the sole `event:{id}:guests` entry, initializes the availability
cache, and returns the event descriptor with `hostGuestId`. The generated
host guest id and the timestamp are passed in explicitly. -/
def createEvent (store : GuestStore) (eventId : String)
    (request : CreateEventRequest) (hostGuestId now : String) :
    EventState × GuestStore × EventResponse :=
  let eventData : EventData :=
    ⟨eventId, request.name, request.description, now, now, some hostGuestId⟩
  let store' :=
    (updateGuest store hostGuestId eventId ⟨request.hostName, none⟩ now).1
  let hostGuestData : GuestData :=
    ⟨hostGuestId, eventId, request.hostName, none, now, now⟩
  let es : EventState :=
    { eventData := some eventData
      guests := [(hostGuestId, hostGuestData)]
      cache := some ⟨[], 1, 0, now⟩ }
  (es, store',
    ⟨eventId, request.name, request.description, "/event/" ++ eventId,
      now, now, some hostGuestId⟩)

/-- Source `Event.getEvent(eventId)`. -/
def getEvent (es : EventState) (eventId : String) : Option EventResponse :=
  match es.eventData with
  | none => none
  | some eventData =>
      some ⟨eventData.id, eventData.name, eventData.description,
        "/event/" ++ eventId, eventData.createdAt, eventData.updatedAt,
        eventData.hostGuestId⟩

/-- Source `Event.updateEvent(eventId, request)`: metadata-only merge update. -/
def updateEvent (es : EventState) (eventId : String)
    (reqName reqDescription : Option String) (now : String) :
    EventState × Option EventResponse :=
  match es.eventData with
  | none => (es, none)
  | some eventData =>
      let updated : EventData :=
        { eventData with
          name := reqName.getD eventData.name
          description := reqDescription.getD eventData.description
          updatedAt := now }
      ({ es with eventData := some updated },
        some ⟨updated.id, updated.name, updated.description,
          "/event/" ++ eventId, updated.createdAt, updated.updatedAt,
          updated.hostGuestId⟩)

/-- Source `Event.generateGuestLink(eventId, guestName)`: registers a fresh guest
snapshot in the registry, creates the Guest-DO record (passing the snapshot
as the update payload), and returns the link descriptor. `none` models the
thrown `Event not found`. The generated guest id is passed in explicitly. -/
def generateGuestLink (es : EventState) (store : GuestStore)
    (eventId guestId : String) (guestName : Option String) (now : String) :
    Option (EventState × GuestStore × GuestLink) :=
  match es.eventData with
  | none => none
  | some _ =>
      let guestData : GuestData := ⟨guestId, eventId, guestName, none, now, now⟩
      let guests' := storePut es.guests guestId guestData
      let store' :=
        (updateGuest store guestId eventId
          ⟨guestData.name, guestData.availability⟩ now).1
      some ({ es with guests := guests' }, store',
        ⟨guestId, "/event/" ++ eventId ++ "/guest/" ++ guestId⟩)

/-- Source `Event.getEventGuests(eventId)`: `Object.values` of the registry. -/
def getEventGuests (es : EventState) : List GuestData :=
  es.guests.map Prod.snd

/-- Source `Event.removeGuest(eventId, guestId)`: when present, deletes the registry
entry and immediately recomputes the aggregate cache. -/
def removeGuest (es : EventState) (store : GuestStore) (fail : List String)
    (guestId now : String) : EventState :=
  match storeGet es.guests guestId with
  | some _ =>
      updateAggregateAvailability
        { es with guests := storeDelete es.guests guestId } store fail now
  | none => es

/-- Source `Event.getEventAvailability(eventId)`: serves the cache, recomputing it
first when absent; `none` models the thrown `Event not found`. -/
def getEventAvailability (es : EventState) (store : GuestStore)
    (fail : List String) (now : String) : Option EventAvailability :=
  match es.eventData with
  | none => none
  | some _ =>
      match es.cache with
      | some cached => some ⟨cached.heatmap, cached.totalGuests, cached.respondedGuests⟩
      | none =>
          let es' := updateAggregateAvailability es store fail now
          match es'.cache with
          | some fresh => some ⟨fresh.heatmap, fresh.totalGuests, fresh.respondedGuests⟩
          | none => some ⟨[], 0, 0⟩

/-- JavaScript `String.prototype.trim`, modelled on the character list so
that it evaluates in the kernel. -/
def jsTrim (s : String) : String :=
  String.mk
    (((s.data.dropWhile Char.isWhitespace).reverse.dropWhile
      Char.isWhitespace).reverse)

/-- Source `isValidId` in routes.ts: `/^[0-9a-zA-Z]{8}$/`, i.e. exactly eight
alphanumeric code points. -/
def isValidId (value : String) : Bool :=
  value.data.length = 8 && value.data.all Char.isAlphanum

/-- Response bodies of the modelled API handlers. `invalidId` is the 400
emitted by a `param` validator, `validationError` the 400 emitted by a
`json` validator, `failed` a handler-level catch response. -/
inductive ApiResponse where
  | invalidId : ApiResponse
  | validationError : ApiResponse
  | notFound : ApiResponse
  | failed : ApiResponse
  | okGuest : GuestData → ApiResponse
  | okEvent : EventResponse → ApiResponse
  | okLink : GuestLink → ApiResponse
  | okAvail : EventAvailability → ApiResponse
  deriving DecidableEq, Repr

/-- The event identifier a response body carries, when it carries the full
guest record (whose `eventId` field is the owning event's id). -/
def responseEventId : ApiResponse → Option String
  | .okGuest guest => some guest.eventId
  | _ => none

/-- Outcome of one modelled request: the response, the resulting durable
state, and (instrumentation for the validator-ordering property) the list of
actor ids the handler addressed. A `param` validator rejection produces the
response before any actor id is resolved, so `addressed = []` there. -/
structure RouteResult (σ : Type) where
  response : ApiResponse
  state : σ
  addressed : List String
  deriving Repr

/-- Source `GET /guests/:guestId` (routes.ts): param validation, then
`guestDO.getGuest`; the full guest record is the response body. -/
def getGuestRoute (store : GuestStore) (guestId : String) :
    RouteResult GuestStore :=
  if isValidId guestId then
    match getGuest store guestId with
    | none => ⟨.notFound, store, [guestId]⟩
    | some guest => ⟨.okGuest guest, store, [guestId]⟩
  else ⟨.invalidId, store, []⟩

/-- Source `PUT /guests/:guestId/name` (routes.ts): param validation, json
validation (name present, a string and non-blank after trim), then
`getGuest` followed by `updateGuest` with the trimmed name; the response
body is the full updated snapshot. -/
def putGuestNameRoute (store : GuestStore) (guestId : String)
    (payloadName : Option String) (now : String) : RouteResult GuestStore :=
  if isValidId guestId then
    match payloadName with
    | none => ⟨.validationError, store, []⟩
    | some nm =>
        if jsTrim nm = "" then ⟨.validationError, store, []⟩
        else
          match getGuest store guestId with
          | none => ⟨.notFound, store, [guestId]⟩
          | some guestData =>
              let r := updateGuest store guestId guestData.eventId
                ⟨some (jsTrim nm), none⟩ now
              ⟨.okGuest r.2, r.1, [guestId]⟩
  else ⟨.invalidId, store, []⟩

/-- Source `PUT /guests/:guestId/availability` (routes.ts): param validation, json
validation (`Array.isArray`), then `getGuest` followed by `updateGuest`
with the availability list; the response body is the full updated
snapshot. -/
def putGuestAvailabilityRoute (store : GuestStore) (guestId : String)
    (payloadAvailability : Option (List String)) (now : String) :
    RouteResult GuestStore :=
  if isValidId guestId then
    match payloadAvailability with
    | none => ⟨.validationError, store, []⟩
    | some availability =>
        match getGuest store guestId with
        | none => ⟨.notFound, store, [guestId]⟩
        | some guestData =>
            let r := updateGuest store guestId guestData.eventId
              ⟨none, some availability⟩ now
            ⟨.okGuest r.2, r.1, [guestId]⟩
  else ⟨.invalidId, store, []⟩

/-- Source `GET /events/:eventId` (routes.ts). -/
def getEventRoute (es : EventState) (eventId : String) :
    RouteResult EventState :=
  if isValidId eventId then
    match getEvent es eventId with
    | none => ⟨.notFound, es, [eventId]⟩
    | some event => ⟨.okEvent event, es, [eventId]⟩
  else ⟨.invalidId, es, []⟩

/-- Source `POST /events/:eventId/guests` (routes.ts): param validation, then
`generateGuestLink`; a thrown error becomes the catch-all 400. -/
def postEventGuestsRoute (es : EventState) (store : GuestStore)
    (eventId guestId : String) (guestName : Option String) (now : String) :
    RouteResult (EventState × GuestStore) :=
  if isValidId eventId then
    match generateGuestLink es store eventId guestId guestName now with
    | none => ⟨.failed, (es, store), [eventId]⟩
    | some (es', store', link) => ⟨.okLink link, (es', store'), [eventId]⟩
  else ⟨.invalidId, (es, store), []⟩

/-- Source `GET /events/:eventId/availability` (routes.ts). -/
def getEventAvailabilityRoute (es : EventState) (store : GuestStore)
    (fail : List String) (eventId now : String) :
    RouteResult (EventState × GuestStore) :=
  if isValidId eventId then
    match getEventAvailability es store fail now with
    | none => ⟨.failed, (es, store), [eventId]⟩
    | some availability => ⟨.okAvail availability, (es, store), [eventId]⟩
  else ⟨.invalidId, (es, store), []⟩

/-- Modelled from the spec: the `DELETE /events/{eventId}/guests/{guestId}`
handler is absent from the server sources (only the frontend caller and the
two actor methods exist). Per spec section 4.3, `removeGuest(id)` removes
`id` from the registry and deletes the GuestActor, followed by aggregate
recomputation; `Event.removeGuest` (which recomputes) and
`Guest.deleteGuest` are the source methods composed here. -/
def deleteGuestEndpoint (es : EventState) (store : GuestStore)
    (fail : List String) (guestId now : String) : EventState × GuestStore :=
  (removeGuest es store fail guestId now, deleteGuest store guestId)

/-- Consumer-side read of the raw-count heatmap object (`heatmap[d] || 0`). -/
def hmGet (h : List (String × ℕ)) (d : String) : ℕ :=
  (storeGet h d).getD 0

/-- Consumer-side read of the normalized heatmap object (`heatmap[d] || 0`). -/
def hmGetQ (h : List (String × ℚ)) (d : String) : ℚ :=
  (storeGet h d).getD 0

/-- How many heatmap increments member `g` contributes for date `d`: the
number of occurrences of `d` in its polled availability list. -/
def countOn (store : GuestStore) (fail : List String) (g d : String) : ℕ :=
  ((pollAvail store fail g).getD []).count d

/-- A guest store with every record of the failing guests removed: used to
state that failed fan-out reads are excluded from the aggregate. -/
def storeDropAll : GuestStore → List String → GuestStore
  | [], _ => []
  | p :: rest, fail =>
      if p.1 ∈ fail then storeDropAll rest fail else p :: storeDropAll rest fail

/-- The literal reading of the spec's ownership rule: every value in the
event's durable guests record carries no guest content. -/
def registryContentFree (es : EventState) : Prop :=
  ∀ p ∈ es.guests, p.2.name = none ∧ p.2.availability = none

/-- The host-membership invariant: the event record names `hostId` as its
host and the registry has an entry under `hostId`. -/
def hostRegistered (es : EventState) (hostId : String) : Prop :=
  es.eventData.map EventData.hostGuestId = some (some hostId) ∧
  (storeGet es.guests hostId).isSome = true

/-- The event-actor operations of the reachability claim (after creation):
guest-link generation, guest removal, metadata update. -/
inductive EvOp where
  | genLink (guestId : String) (guestName : Option String) (now : String) : EvOp
  | remove (guestId : String) (now : String) : EvOp
  | updateMeta (reqName reqDescription : Option String) (now : String) : EvOp
  deriving DecidableEq, Repr

/-- Apply one event-actor operation to the event state and guest store. -/
def applyOp (eventId : String) (fail : List String)
    (s : EventState × GuestStore) : EvOp → EventState × GuestStore
  | .genLink guestId guestName now =>
      match generateGuestLink s.1 s.2 eventId guestId guestName now with
      | none => s
      | some (es', store', _) => (es', store')
  | .remove guestId now => (removeGuest s.1 s.2 fail guestId now, s.2)
  | .updateMeta reqName reqDescription now =>
      ((updateEvent s.1 eventId reqName reqDescription now).1, s.2)

/-- Apply a sequence of event-actor operations. -/
def runOps (eventId : String) (fail : List String)
    (s : EventState × GuestStore) (ops : List EvOp) : EventState × GuestStore :=
  ops.foldl (applyOp eventId fail) s

/-- Apply a sequence of `updateGuest` merge calls to one guest id; each call
carries its event id, its update payload and its timestamp. -/
def applyGuestUpdates (store : GuestStore) (guestId : String)
    (calls : List (String × GuestUpdates × String)) : GuestStore :=
  calls.foldl (fun st c => (updateGuest st guestId c.1 c.2.1 c.2.2).1) store

/-- Concrete scenario: host available on 2025-06-01 and 2025-06-02. -/
def hostAnn : GuestData :=
  ⟨"HOSTID01", "EVENTID1", some "Ann", some ["2025-06-01", "2025-06-02"], "t0", "t0"⟩

/-- Concrete scenario: a second guest available on 2025-06-02 only. -/
def guestBob : GuestData :=
  ⟨"GUESTID2", "EVENTID1", some "Bob", some ["2025-06-02"], "t0", "t0"⟩

/-- Concrete scenario: a guest who responded with the empty list. -/
def guestCal : GuestData :=
  ⟨"GUESTID3", "EVENTID1", some "Cal", some [], "t0", "t0"⟩

/-- Concrete scenario: a guest who has not responded (availability unset). -/
def guestDee : GuestData :=
  ⟨"GUESTID4", "EVENTID1", some "Dee", none, "t0", "t0"⟩

/-- Concrete event state with two responded members and no cache yet. -/
def twoGuestState : EventState :=
  { eventData := some ⟨"EVENTID1", "party", "desc", "t0", "t0", some "HOSTID01"⟩
    guests := [("HOSTID01", hostAnn), ("GUESTID2", guestBob)]
    cache := none }

/-- Guest store matching `twoGuestState`. -/
def twoGuestStore : GuestStore :=
  [("HOSTID01", hostAnn), ("GUESTID2", guestBob)]

/-- Concrete event state with one member and no cache yet. -/
def oneGuestState : EventState :=
  { eventData := some ⟨"EVENTID1", "party", "desc", "t0", "t0", some "HOSTID01"⟩
    guests := [("GUESTID2", guestBob)]
    cache := none }

/-- Guest store matching `oneGuestState`. -/
def oneGuestStore : GuestStore := [("GUESTID2", guestBob)]

/-- Concrete event state with four members covering all tri-state cases. -/
def fourGuestState : EventState :=
  { eventData := some ⟨"EVENTID1", "party", "desc", "t0", "t0", some "HOSTID01"⟩
    guests := [("HOSTID01", hostAnn), ("GUESTID2", guestBob),
               ("GUESTID3", guestCal), ("GUESTID4", guestDee)]
    cache := none }

/-- Guest store matching `fourGuestState`. -/
def fourGuestStore : GuestStore :=
  [("HOSTID01", hostAnn), ("GUESTID2", guestBob),
   ("GUESTID3", guestCal), ("GUESTID4", guestDee)]

/-- Event state after generating a guest link for "GUESTID9" on
`twoGuestState`. -/
def linkedState : EventState :=
  { twoGuestState with
    guests := storePut twoGuestState.guests "GUESTID9"
      ⟨"GUESTID9", "EVENTID1", some "Zed", none, "t5", "t5"⟩ }

/-- Guest store after generating a guest link for "GUESTID9" on
`twoGuestStore`. -/
def linkedStore : GuestStore :=
  (updateGuest twoGuestStore "GUESTID9" "EVENTID1" ⟨some "Zed", none⟩ "t5").1

/-- Result of creating a concrete event with host "Ann". -/
def createdPair : EventState × GuestStore × EventResponse :=
  createEvent [] "EVENTID1" ⟨"party", "desc", some "Ann"⟩ "HOSTID01" "t0"

/-- Reachable state: the concrete created event after `removeGuest` is
applied to the host's own guest id. -/
def hostRemovedState : EventState :=
  removeGuest createdPair.1 createdPair.2.1 [] "HOSTID01" "t1"

/-- The registry of `fourGuestState` after deleting "GUESTID2". -/
def remainingGuests : List (String × GuestData) :=
  storeDelete fourGuestState.guests "GUESTID2"

/-! ### Association-list lemmas -/

theorem storeGet_storePut_self {α : Type} (s : List (String × α)) (k : String)
    (v : α) : storeGet (storePut s k v) k = some v := by
  induction s with
  | nil => simp [storePut, storeGet]
  | cons p rest ih =>
      by_cases h : p.1 = k
      · simp [storePut, storeGet, h]
      · simp [storePut, storeGet, h, ih]

theorem storeGet_storePut_ne {α : Type} (s : List (String × α)) (k k' : String)
    (v : α) (h : k ≠ k') : storeGet (storePut s k v) k' = storeGet s k' := by
  induction s with
  | nil => simp [storePut, storeGet, h]
  | cons p rest ih =>
      by_cases hp : p.1 = k
      · simp [storePut, storeGet, hp, h]
      · simp [storePut, storeGet, hp, ih]

theorem storeGet_storeDelete_ne {α : Type} (s : List (String × α))
    (k k' : String) (h : k ≠ k') :
    storeGet (storeDelete s k) k' = storeGet s k' := by
  induction s with
  | nil => simp [storeDelete]
  | cons p rest ih =>
      by_cases hp : p.1 = k
      · simp [storeDelete, storeGet, hp, h]
      · by_cases hp' : p.1 = k'
        · simp [storeDelete, storeGet, hp, hp', Ne.symm h]
        · simp [storeDelete, storeGet, hp, hp', ih]

theorem map_fst_storeDelete {α : Type} (s : List (String × α)) (k : String) :
    (storeDelete s k).map Prod.fst = (s.map Prod.fst).erase k := by
  induction s with
  | nil => simp [storeDelete]
  | cons p rest ih =>
      by_cases hp : p.1 = k
      · simp [storeDelete, hp, List.erase_cons]
      · simp [storeDelete, hp, List.erase_cons, ih]

theorem mem_storeDelete {α : Type} {s : List (String × α)} {k : String}
    {p : String × α} (h : p ∈ storeDelete s k) : p ∈ s := by
  induction s with
  | nil => simp [storeDelete] at h
  | cons q rest ih =>
      by_cases hq : q.1 = k
      · simp only [storeDelete, hq, if_pos rfl] at h
        exact List.mem_cons_of_mem q h
      · simp only [storeDelete, hq, if_neg hq] at h
        rcases List.mem_cons.mp h with h | h
        · exact h ▸ List.mem_cons_self q rest
        · exact List.mem_cons_of_mem q (ih h)

theorem storeGet_storeDelete_self {α : Type} (s : List (String × α))
    (k : String) (h : (s.map Prod.fst).Nodup) :
    storeGet (storeDelete s k) k = none := by
  induction s with
  | nil => simp [storeDelete, storeGet]
  | cons p rest ih =>
      simp only [List.map_cons, List.nodup_cons] at h
      by_cases hp : p.1 = k
      · subst hp
        simp only [storeDelete, if_pos rfl]
        cases hrest : storeGet rest p.1 with
        | none => exact hrest
        | some v =>
            exfalso
            apply h.1
            clear ih h
            induction rest with
            | nil => simp [storeGet] at hrest
            | cons q rest' ih' =>
                by_cases hq : q.1 = p.1
                · simp [hq]
                · simp only [storeGet, hq, if_neg hq] at hrest
                  simpa using Or.inr (ih' hrest)
      · simp [storeDelete, storeGet, hp, ih h.2]

theorem length_storeDelete {α : Type} (s : List (String × α)) (k : String)
    (h : (storeGet s k).isSome) : (storeDelete s k).length + 1 = s.length := by
  induction s with
  | nil => simp [storeGet] at h
  | cons p rest ih =>
      by_cases hp : p.1 = k
      · simp [storeDelete, hp]
      · simp only [storeGet, hp, if_neg hp] at h
        simp [storeDelete, hp, ih h]

theorem storeGet_storeDropAll (store : GuestStore) (fail : List String)
    (g : String) :
    storeGet (storeDropAll store fail) g =
      if g ∈ fail then none else storeGet store g := by
  induction store with
  | nil => simp [storeDropAll, storeGet]
  | cons p rest ih =>
      by_cases hf : p.1 ∈ fail
      · by_cases hg : p.1 = g
        · subst hg
          simp [storeDropAll, hf, ih]
        · simp [storeDropAll, hf, storeGet, hg, ih]
      · by_cases hg : p.1 = g
        · subst hg
          simp [storeDropAll, hf, storeGet]
        · simp [storeDropAll, hf, storeGet, hg, ih]

/-! ### Heatmap lemmas -/

theorem hmGet_hmInc (h : List (String × ℕ)) (d' d : String) :
    hmGet (hmInc h d') d = hmGet h d + if d' = d then 1 else 0 := by
  induction h with
  | nil =>
      by_cases hd : d' = d
      · simp [hmInc, hmGet, storeGet, hd]
      · simp [hmInc, hmGet, storeGet, hd]
  | cons p rest ih =>
      by_cases hp : p.1 = d'
      · subst hp
        by_cases hd : p.1 = d
        · simp [hmInc, hmGet, storeGet, hd]
        · simp [hmInc, hmGet, storeGet, hd]
      · by_cases hd : p.1 = d
        · simp only [hmInc, if_neg hp]
          have hne : d' ≠ d := fun hc => hp (hd.trans hc.symm)
          simp [hmGet, storeGet, hd, hne]
        · simp only [hmInc, if_neg hp]
          simp only [hmGet, storeGet, if_neg hd] at ih ⊢
          exact ih

theorem hmGet_foldl_hmInc (dates : List String) (h : List (String × ℕ))
    (d : String) :
    hmGet (dates.foldl hmInc h) d = hmGet h d + dates.count d := by
  induction dates generalizing h with
  | nil => simp [hmGet]
  | cons d' rest ih =>
      simp only [List.foldl_cons, ih, hmGet_hmInc, List.count_cons]
      by_cases hd : d' = d
      · simp [hd]
        omega
      · have : ¬ (d' == d) := by simpa using hd
        simp [hd, this]

theorem hmGetQ_normalizeHm (h : List (String × ℕ)) (r : ℕ) (d : String) :
    hmGetQ (normalizeHm h r) d =
      if 0 < r then (hmGet h d : ℚ) / (r : ℚ) else 0 := by
  induction h with
  | nil =>
      by_cases hr : 0 < r <;> simp [normalizeHm, hmGetQ, hmGet, storeGet, hr]
  | cons p rest ih =>
      by_cases hp : p.1 = d
      · simp [normalizeHm, hmGetQ, hmGet, storeGet, hp]
      · simpa [normalizeHm, hmGetQ, hmGet, storeGet, hp] using ih

/-! ### Fan-out fold lemmas -/

theorem pollStep_eq (store : GuestStore) (fail : List String) (acc : AggAcc)
    (g : String) :
    pollStep store fail acc g =
      match pollAvail store fail g with
      | none => acc
      | some dates => ⟨dates.foldl hmInc acc.heatmap, acc.responded + 1⟩ := by
  unfold pollStep pollAvail
  cases pollRead store fail g with
  | none => rfl
  | some gd => cases gd.availability <;> rfl

theorem aggResponded (store : GuestStore) (fail : List String)
    (gids : List String) (acc : AggAcc) :
    (gids.foldl (pollStep store fail) acc).responded =
      acc.responded +
        (gids.filter fun g => (pollAvail store fail g).isSome).length := by
  induction gids generalizing acc with
  | nil => simp
  | cons g rest ih =>
      simp only [List.foldl_cons, List.filter_cons]
      cases hg : pollAvail store fail g with
      | none => simp [ih, pollStep_eq, hg]
      | some dates =>
          simp [ih, pollStep_eq, hg]
          omega

theorem aggHeatmap (store : GuestStore) (fail : List String) (d : String)
    (gids : List String) (acc : AggAcc) :
    hmGet (gids.foldl (pollStep store fail) acc).heatmap d =
      hmGet acc.heatmap d + (gids.map fun g => countOn store fail g d).sum := by
  induction gids generalizing acc with
  | nil => simp
  | cons g rest ih =>
      simp only [List.foldl_cons, List.map_cons, List.sum_cons]
      cases hg : pollAvail store fail g with
      | none => simp [ih, pollStep_eq, hg, countOn]
      | some dates =>
          simp [ih, pollStep_eq, hg, countOn, hmGet_foldl_hmInc]
          omega

theorem sum_countOn_of_nodup (store : GuestStore) (fail : List String)
    (d : String) (gids : List String)
    (hnd : ∀ g ∈ gids, ((pollAvail store fail g).getD []).Nodup) :
    (gids.map fun g => countOn store fail g d).sum =
      (gids.filter fun g =>
        decide (d ∈ (pollAvail store fail g).getD [])).length := by
  induction gids with
  | nil => simp
  | cons g rest ih =>
      simp only [List.map_cons, List.sum_cons, List.filter_cons]
      have hrest := ih fun g' hg' => hnd g' (List.mem_cons_of_mem g hg')
      have hhead : countOn store fail g d =
          if d ∈ (pollAvail store fail g).getD [] then 1 else 0 := by
        have hl : ((pollAvail store fail g).getD []).Nodup :=
          hnd g (List.mem_cons_self g rest)
        by_cases hm : d ∈ (pollAvail store fail g).getD []
        · simp [countOn, hm, List.count_eq_one_of_mem hl hm]
        · simp [countOn, hm, List.count_eq_zero.mpr hm]
      by_cases hm : d ∈ (pollAvail store fail g).getD []
      · simp [hhead, hm, hrest]
        omega
      · simp [hhead, hm, hrest]

/-! ### Aggregate characterization -/

theorem updateAgg_cache (es : EventState) (store : GuestStore)
    (fail : List String) (now : String) (ed : EventData)
    (h : es.eventData = some ed) :
    ∃ c, (updateAggregateAvailability es store fail now).cache = some c ∧
      c.totalGuests = es.guests.length ∧
      c.respondedGuests = ((es.guests.map Prod.fst).filter
        (fun g => (pollAvail store fail g).isSome)).length ∧
      ∀ d, hmGetQ c.heatmap d =
        if 0 < c.respondedGuests then
          ((((es.guests.map Prod.fst).map
            fun g => countOn store fail g d).sum : ℕ) : ℚ) /
            (c.respondedGuests : ℚ)
        else 0 := by
  unfold updateAggregateAvailability
  rw [h]
  refine ⟨_, rfl, by simp, ?_, ?_⟩
  · simp [aggResponded]
  · intro d
    simp only [aggResponded, hmGetQ_normalizeHm, aggHeatmap]
    simp [hmGet, storeGet]

theorem updateAgg_guests (es : EventState) (store : GuestStore)
    (fail : List String) (now : String) :
    (updateAggregateAvailability es store fail now).guests = es.guests := by
  obtain ⟨ed?, gs, ch⟩ := es
  cases ed? <;> rfl

theorem updateAgg_eventData (es : EventState) (store : GuestStore)
    (fail : List String) (now : String) :
    (updateAggregateAvailability es store fail now).eventData = es.eventData := by
  obtain ⟨ed?, gs, ch⟩ := es
  cases ed? <;> rfl

theorem removeGuest_guests (es : EventState) (store : GuestStore)
    (fail : List String) (guestId now : String) :
    (removeGuest es store fail guestId now).guests =
      match storeGet es.guests guestId with
      | some _ => storeDelete es.guests guestId
      | none => es.guests := by
  unfold removeGuest
  cases storeGet es.guests guestId with
  | none => rfl
  | some _ => simp [updateAgg_guests]

theorem removeGuest_eventData (es : EventState) (store : GuestStore)
    (fail : List String) (guestId now : String) :
    (removeGuest es store fail guestId now).eventData = es.eventData := by
  unfold removeGuest
  cases storeGet es.guests guestId with
  | none => rfl
  | some _ => simp [updateAgg_eventData]

theorem pollAvail_nil (store : GuestStore) (g : String) :
    pollAvail store [] g = (getGuest store g).bind GuestData.availability := by
  simp [pollAvail, pollRead, getGuest]

theorem jsOr_keeps (a : Option String) (t : String) (ht : t ≠ "") :
    ∃ t', jsOr a (some t) = some t' ∧ t' ≠ "" := by
  cases a with
  | none => exact ⟨t, rfl, ht⟩
  | some v =>
      by_cases hv : v = ""
      · exact ⟨t, by simp [jsOr, hv], ht⟩
      · exact ⟨v, by simp [jsOr, hv], hv⟩

theorem updateGuest_keeps_name (store : GuestStore) (guestId eventId : String)
    (u : GuestUpdates) (now : String)
    (h : ∃ gd t, storeGet store guestId = some gd ∧ gd.name = some t ∧ t ≠ "") :
    ∃ gd' t',
      storeGet (updateGuest store guestId eventId u now).1 guestId = some gd' ∧
      gd'.name = some t' ∧ t' ≠ "" := by
  obtain ⟨gd, t, hg, hn, ht⟩ := h
  obtain ⟨t', ht', hne⟩ := jsOr_keeps u.name t ht
  refine ⟨(updateGuest store guestId eventId u now).2, t', ?_, ?_, hne⟩
  · simp [updateGuest, storeGet_storePut_self]
  · simp [updateGuest, hg, hn, ht']

theorem applyGuestUpdates_keeps_name (guestId : String)
    (calls : List (String × GuestUpdates × String)) (store : GuestStore)
    (h : ∃ gd t, storeGet store guestId = some gd ∧ gd.name = some t ∧ t ≠ "") :
    ∃ gd' t',
      storeGet (applyGuestUpdates store guestId calls) guestId = some gd' ∧
      gd'.name = some t' ∧ t' ≠ "" := by
  induction calls generalizing store with
  | nil => exact h
  | cons c rest ih =>
      simp only [applyGuestUpdates, List.foldl_cons]
      exact ih _ (updateGuest_keeps_name store guestId c.1 c.2.1 c.2.2 h)

theorem generateGuestLink_some (es : EventState) (store : GuestStore)
    (eventId guestId : String) (guestName : Option String) (now : String)
    (es' : EventState) (store' : GuestStore) (link : GuestLink)
    (h : generateGuestLink es store eventId guestId guestName now
      = some (es', store', link)) :
    es'.eventData = es.eventData ∧
    es'.guests = storePut es.guests guestId
      (⟨guestId, eventId, guestName, none, now, now⟩ : GuestData) := by
  unfold generateGuestLink at h
  cases hev : es.eventData with
  | none => simp [hev] at h
  | some ed =>
      simp only [hev, Option.some.injEq, Prod.mk.injEq] at h
      obtain ⟨h1, h2, h3⟩ := h
      subst h1
      exact ⟨rfl, rfl⟩

theorem getEventAvailability_cached (es : EventState) (store : GuestStore)
    (fail : List String) (now : String) (c : CacheData) (ed : EventData)
    (hev : es.eventData = some ed) (hc : es.cache = some c) :
    getEventAvailability es store fail now
      = some ⟨c.heatmap, c.totalGuests, c.respondedGuests⟩ := by
  unfold getEventAvailability
  rw [hev, hc]

theorem createEvent_hostRegistered (store : GuestStore) (eventId : String)
    (request : CreateEventRequest) (hostId now : String) :
    hostRegistered (createEvent store eventId request hostId now).1 hostId := by
  constructor
  · rfl
  · simp [createEvent, storeGet]

theorem applyOp_hostRegistered (eventId : String) (fail : List String)
    (hostId : String) (s : EventState × GuestStore) (op : EvOp)
    (hop : ∀ g t, op = EvOp.remove g t → g ≠ hostId)
    (h : hostRegistered s.1 hostId) :
    hostRegistered (applyOp eventId fail s op).1 hostId := by
  obtain ⟨h1, h2⟩ := h
  cases op with
  | genLink gid gname now =>
      simp only [applyOp]
      cases hgen : generateGuestLink s.1 s.2 eventId gid gname now with
      | none => exact ⟨h1, h2⟩
      | some r =>
          obtain ⟨es', store', link⟩ := r
          obtain ⟨hev, hgu⟩ := generateGuestLink_some s.1 s.2 eventId gid gname
            now es' store' link hgen
          refine ⟨by rw [hev]; exact h1, ?_⟩
          rw [hgu]
          by_cases hg : gid = hostId
          · subst hg
            simp [storeGet_storePut_self]
          · rw [storeGet_storePut_ne _ _ _ _ hg]
            exact h2
  | remove gid now =>
      have hne : gid ≠ hostId := hop gid now rfl
      simp only [applyOp]
      refine ⟨?_, ?_⟩
      · rw [removeGuest_eventData]
        exact h1
      · rw [removeGuest_guests]
        cases hm : storeGet s.1.guests gid with
        | none => exact h2
        | some _ =>
            show (storeGet (storeDelete s.1.guests gid) hostId).isSome = true
            rw [storeGet_storeDelete_ne s.1.guests gid hostId hne]
            exact h2
  | updateMeta rn rd now =>
      simp only [applyOp]
      cases hev : s.1.eventData with
      | none =>
          unfold updateEvent
          rw [hev]
          exact ⟨h1, h2⟩
      | some ed =>
          have hhg : ed.hostGuestId = some hostId := by
            rw [hev] at h1
            simpa using h1
          unfold updateEvent
          rw [hev]
          refine ⟨?_, h2⟩
          simp [hhg]

theorem runOps_hostRegistered (eventId : String) (fail : List String)
    (hostId : String) (ops : List EvOp) (s : EventState × GuestStore)
    (hops : ∀ g t, EvOp.remove g t ∈ ops → g ≠ hostId)
    (h : hostRegistered s.1 hostId) :
    hostRegistered (runOps eventId fail s ops).1 hostId := by
  induction ops generalizing s with
  | nil => exact h
  | cons op rest ih =>
      simp only [runOps, List.foldl_cons]
      exact ih (applyOp eventId fail s op)
        (fun g t hm => hops g t (List.mem_cons_of_mem op hm))
        (applyOp_hostRegistered eventId fail hostId s op
          (fun g t heq => hops g t (heq ▸ List.mem_cons_self op rest)) ⟨h.1, h.2⟩)

/-! ### Claims -/

/-- Claim C3: for every event, the aggregate result has `respondedGuests`
equal to the number of member guests whose availability is not unset
(an explicit empty list counts, since it is `some []`), and `totalGuests`
equal to the size of the guest registry. -/
theorem c3_responded_and_total (es : EventState) (store : GuestStore)
    (now : String) (ed : EventData) (h : es.eventData = some ed) :
    ∃ c, (updateAggregateAvailability es store [] now).cache = some c ∧
      c.respondedGuests = ((es.guests.map Prod.fst).filter
        (fun g => ((getGuest store g).bind GuestData.availability).isSome)).length ∧
      c.totalGuests = es.guests.length := by
  obtain ⟨c, hc, htot, hresp, _⟩ := updateAgg_cache es store [] now ed h
  refine ⟨c, hc, ?_, htot⟩
  rw [hresp]
  simp [pollAvail_nil]

/-- Witness for C3 on a concrete event: four members, of whom the host and
one guest responded with dates and one guest with the explicit empty list
(counted), while the fourth is unset (not counted). -/
theorem c3_responded_and_total_witness :
    fourGuestState.eventData =
      some ⟨"EVENTID1", "party", "desc", "t0", "t0", some "HOSTID01"⟩ ∧
    ∃ c,
      (updateAggregateAvailability fourGuestState fourGuestStore [] "t1").cache
        = some c ∧
      c.respondedGuests = ((fourGuestState.guests.map Prod.fst).filter
        (fun g =>
          ((getGuest fourGuestStore g).bind GuestData.availability).isSome)).length ∧
      c.totalGuests = fourGuestState.guests.length :=
  ⟨rfl, c3_responded_and_total fourGuestState fourGuestStore "t1" _ rfl⟩

/-- Claim C7: for every existing guest record, a merge update that does not
mention availability preserves the stored tri-state value; an explicit
empty-list update is stored as the empty list; `updateAvailability(g, D)`
followed by `get(g)` returns availability exactly `D`; and the merge update
returns the full updated snapshot (the stored record equals the returned
one). -/
theorem c7_update_preserves_tristate (store : GuestStore)
    (guestId eventId : String) (gd : GuestData) (nm : Option String)
    (D : List String) (now now' : String)
    (h : storeGet store guestId = some gd) :
    ((updateGuest store guestId eventId ⟨nm, none⟩ now).2).availability
      = gd.availability ∧
    getGuest (updateGuest store guestId eventId ⟨nm, none⟩ now).1 guestId
      = some (updateGuest store guestId eventId ⟨nm, none⟩ now).2 ∧
    ((updateGuest store guestId eventId ⟨nm, some []⟩ now).2).availability
      = some [] ∧
    getGuest (updateGuest store guestId eventId ⟨nm, some []⟩ now).1 guestId
      = some (updateGuest store guestId eventId ⟨nm, some []⟩ now).2 ∧
    ∃ r, updateAvailability store guestId D now' = some r ∧
      getGuest r.1 guestId = some r.2 ∧ r.2.availability = some D := by
  refine ⟨?_, ?_, ?_, ?_, ?_⟩
  · simp [updateGuest, h]
  · simp [updateGuest, getGuest, storeGet_storePut_self]
  · simp [updateGuest]
  · simp [updateGuest, getGuest, storeGet_storePut_self]
  · have hu : updateAvailability store guestId D now' =
        some (storePut store guestId
            { gd with availability := some D, updatedAt := now' },
          { gd with availability := some D, updatedAt := now' }) := by
      simp [updateAvailability, h]
    refine ⟨_, hu, ?_, ?_⟩
    · simp [getGuest, storeGet_storePut_self]
    · simp

/-- Witness for C7 on a concrete guest: merge update of the name alone
leaves Bob's dates in place, an empty-list update stores `some []`, and a
whole-set availability replacement reads back exactly. -/
theorem c7_update_preserves_tristate_witness :
    storeGet twoGuestStore "GUESTID2" = some guestBob ∧
    ((updateGuest twoGuestStore "GUESTID2" "EVENTID1"
        ⟨some "Bobby", none⟩ "t1").2).availability = guestBob.availability ∧
    getGuest (updateGuest twoGuestStore "GUESTID2" "EVENTID1"
        ⟨some "Bobby", none⟩ "t1").1 "GUESTID2"
      = some (updateGuest twoGuestStore "GUESTID2" "EVENTID1"
        ⟨some "Bobby", none⟩ "t1").2 ∧
    ((updateGuest twoGuestStore "GUESTID2" "EVENTID1"
        ⟨some "Bobby", some []⟩ "t1").2).availability = some [] ∧
    getGuest (updateGuest twoGuestStore "GUESTID2" "EVENTID1"
        ⟨some "Bobby", some []⟩ "t1").1 "GUESTID2"
      = some (updateGuest twoGuestStore "GUESTID2" "EVENTID1"
        ⟨some "Bobby", some []⟩ "t1").2 ∧
    ∃ r, updateAvailability twoGuestStore "GUESTID2" ["2025-07-04"] "t2"
        = some r ∧
      getGuest r.1 "GUESTID2" = some r.2 ∧
      r.2.availability = some ["2025-07-04"] :=
  ⟨rfl, c7_update_preserves_tristate twoGuestStore "GUESTID2" "EVENTID1"
    guestBob (some "Bobby") ["2025-07-04"] "t1" "t2" rfl⟩

/-- Claim C9: every modelled endpoint that takes an event or guest
identifier rejects a malformed id (the fixed 8-character alphanumeric
matcher fails) with the InvalidIdentifier response, leaves the durable
state untouched, and addresses no actor. -/
theorem c9_invalid_id_rejected (store : GuestStore) (es : EventState)
    (gstore : GuestStore) (id gid now : String) (payloadName : Option String)
    (payloadAvailability : Option (List String)) (guestName : Option String)
    (fail : List String) (h : isValidId id = false) :
    getGuestRoute store id = ⟨.invalidId, store, []⟩ ∧
    putGuestNameRoute store id payloadName now = ⟨.invalidId, store, []⟩ ∧
    putGuestAvailabilityRoute store id payloadAvailability now
      = ⟨.invalidId, store, []⟩ ∧
    getEventRoute es id = ⟨.invalidId, es, []⟩ ∧
    postEventGuestsRoute es gstore id gid guestName now
      = ⟨.invalidId, (es, gstore), []⟩ ∧
    getEventAvailabilityRoute es gstore fail id now
      = ⟨.invalidId, (es, gstore), []⟩ := by
  refine ⟨?_, ?_, ?_, ?_, ?_, ?_⟩ <;>
    simp [getGuestRoute, putGuestNameRoute, putGuestAvailabilityRoute,
      getEventRoute, postEventGuestsRoute, getEventAvailabilityRoute, h]

/-- Witness for C9: the 3-character id "abc" is rejected by every modelled
endpoint with no actor addressed. -/
theorem c9_invalid_id_rejected_witness :
    isValidId "abc" = false ∧
    (getGuestRoute twoGuestStore "abc" = ⟨.invalidId, twoGuestStore, []⟩ ∧
    putGuestNameRoute twoGuestStore "abc" (some "Zed") "t1"
      = ⟨.invalidId, twoGuestStore, []⟩ ∧
    putGuestAvailabilityRoute twoGuestStore "abc" (some []) "t1"
      = ⟨.invalidId, twoGuestStore, []⟩ ∧
    getEventRoute twoGuestState "abc" = ⟨.invalidId, twoGuestState, []⟩ ∧
    postEventGuestsRoute twoGuestState twoGuestStore "abc" "GUESTID9"
      (some "Zed") "t1" = ⟨.invalidId, (twoGuestState, twoGuestStore), []⟩ ∧
    getEventAvailabilityRoute twoGuestState twoGuestStore [] "abc" "t1"
      = ⟨.invalidId, (twoGuestState, twoGuestStore), []⟩) :=
  ⟨by decide,
    c9_invalid_id_rejected twoGuestStore twoGuestState twoGuestStore "abc"
      "GUESTID9" "t1" (some "Zed") (some []) (some "Zed") [] (by decide)⟩

/-- Claim C10: for every existing guest record with a non-empty name, a
merge update whose name field is absent or the empty string leaves the
stored name unchanged, and no sequence of merge updates can clear the name
back to empty or unset. -/
theorem c10_name_never_cleared (store : GuestStore) (guestId eventId : String)
    (gd : GuestData) (s : String) (av : Option (List String)) (now : String)
    (calls : List (String × GuestUpdates × String))
    (hg : storeGet store guestId = some gd) (hn : gd.name = some s)
    (hs : s ≠ "") :
    ((updateGuest store guestId eventId ⟨none, av⟩ now).2).name = some s ∧
    ((updateGuest store guestId eventId ⟨some "", av⟩ now).2).name = some s ∧
    ∃ gd' t, storeGet (applyGuestUpdates store guestId calls) guestId
        = some gd' ∧ gd'.name = some t ∧ t ≠ "" := by
  refine ⟨?_, ?_, ?_⟩
  · simp [updateGuest, hg, hn, jsOr]
  · simp [updateGuest, hg, hn, jsOr]
  · exact applyGuestUpdates_keeps_name guestId calls store ⟨gd, s, hg, hn, hs⟩

/-- Witness for C10: Bob's name survives a merge update with an empty-string
name and a subsequent availability-only merge update. -/
theorem c10_name_never_cleared_witness :
    storeGet twoGuestStore "GUESTID2" = some guestBob ∧
    guestBob.name = some "Bob" ∧
    ((updateGuest twoGuestStore "GUESTID2" "EVENTID1"
        ⟨none, some []⟩ "t1").2).name = some "Bob" ∧
    ((updateGuest twoGuestStore "GUESTID2" "EVENTID1"
        ⟨some "", some []⟩ "t1").2).name = some "Bob" ∧
    ∃ gd' t, storeGet (applyGuestUpdates twoGuestStore "GUESTID2"
        [("EVENTID1", ⟨some "", none⟩, "t1"), ("EVENTID1", ⟨none, some []⟩, "t2")])
        "GUESTID2" = some gd' ∧ gd'.name = some t ∧ t ≠ "" := by
  have h := c10_name_never_cleared twoGuestStore "GUESTID2" "EVENTID1"
    guestBob "Bob" (some []) "t1"
    [("EVENTID1", ⟨some "", none⟩, "t1"), ("EVENTID1", ⟨none, some []⟩, "t2")]
    rfl rfl (by decide)
  exact ⟨rfl, rfl, h.1, h.2.1, h.2.2⟩

/-- Claim C1 (code bug): at the failing input — two responded guests, of
whom exactly one is available on 2025-06-01 — the aggregate read returns
the normalized value 1/2 for that date, not the raw count 1: the engine
itself performs the `count / respondedGuests` normalization before caching,
while the consumer (Calendar.tsx) expects raw guest counts and divides by
`respondedGuests` again. -/
theorem c1_heatmap_normalized_not_raw :
    ((twoGuestState.guests.map Prod.fst).filter
      (fun g => decide ("2025-06-01" ∈ (pollAvail twoGuestStore [] g).getD []))).length
      = 1 ∧
    getEventAvailability twoGuestState twoGuestStore [] "t1"
      = some ⟨normalizeHm [("2025-06-01", 1), ("2025-06-02", 2)] 2, 2, 2⟩ ∧
    normalizeHm [("2025-06-01", 1), ("2025-06-02", 2)] 2
      = [("2025-06-01", (1 : ℚ)/2), ("2025-06-02", 1)] ∧
    hmGetQ [("2025-06-01", (1 : ℚ)/2), ("2025-06-02", 1)] "2025-06-01"
      ≠ (1 : ℚ) := by
  refine ⟨by decide, rfl, by simp [normalizeHm], ?_⟩
  have : hmGetQ [("2025-06-01", (1 : ℚ)/2), ("2025-06-02", 1)] "2025-06-01"
      = (1 : ℚ)/2 := by
    simp [hmGetQ, storeGet]
  rw [this]
  norm_num

/-- Claim C2 counterexample: the guest-scoped GET returns the full guest
record, whose `eventId` field is the owning event's identifier
"EVENTID1". -/
theorem c2_guest_response_contains_eventId :
    (getGuest twoGuestStore "GUESTID2").map GuestData.eventId
      = some "EVENTID1" ∧
    responseEventId (getGuestRoute twoGuestStore "GUESTID2").response
      = some "EVENTID1" :=
  ⟨rfl, rfl⟩

/-- Claim C2 amended: every guest-scoped endpoint response for an existing
guest is the full guest record and therefore carries the owning event's
identifier in its `eventId` field (the guest UI relies on this to load the
event and the heatmap). -/
theorem c2_guest_routes_return_owning_eventId (store : GuestStore)
    (guestId : String) (gd : GuestData) (nm : String)
    (availability : List String) (now : String)
    (hvalid : isValidId guestId = true)
    (hguest : getGuest store guestId = some gd)
    (hnm : ¬ jsTrim nm = "") :
    responseEventId (getGuestRoute store guestId).response = some gd.eventId ∧
    responseEventId (putGuestNameRoute store guestId (some nm) now).response
      = some gd.eventId ∧
    responseEventId (putGuestAvailabilityRoute store guestId
      (some availability) now).response = some gd.eventId := by
  refine ⟨?_, ?_, ?_⟩
  · simp [getGuestRoute, hvalid, hguest, responseEventId]
  · simp [putGuestNameRoute, hvalid, hguest, hnm, responseEventId, updateGuest]
  · simp [putGuestAvailabilityRoute, hvalid, hguest, responseEventId,
      updateGuest]

/-- Witness for the amended C2 at a concrete guest. -/
theorem c2_guest_routes_return_owning_eventId_witness :
    isValidId "GUESTID2" = true ∧
    getGuest twoGuestStore "GUESTID2" = some guestBob ∧
    ¬ (jsTrim "Bobby" = "") ∧
    (responseEventId (getGuestRoute twoGuestStore "GUESTID2").response
        = some guestBob.eventId ∧
      responseEventId (putGuestNameRoute twoGuestStore "GUESTID2"
        (some "Bobby") "t1").response = some guestBob.eventId ∧
      responseEventId (putGuestAvailabilityRoute twoGuestStore "GUESTID2"
        (some ["2025-07-04"]) "t1").response = some guestBob.eventId) :=
  ⟨by decide, rfl, by decide,
    c2_guest_routes_return_owning_eventId twoGuestStore "GUESTID2" guestBob
      "Bobby" ["2025-07-04"] "t1" (by decide) rfl (by decide)⟩

/-- Claim C4 counterexample: a state reachable by `createEvent` followed by
`removeGuest` applied to the host's guest id, where the event record still
names the host but the registry no longer contains it. -/
theorem c4_host_can_be_removed :
    hostRemovedState.eventData.map EventData.hostGuestId
      = some (some "HOSTID01") ∧
    storeGet hostRemovedState.guests "HOSTID01" = none ∧
    ¬ hostRegistered hostRemovedState "HOSTID01" := by
  refine ⟨rfl, rfl, ?_⟩
  intro hreg
  have h2 := hreg.2
  rw [show storeGet hostRemovedState.guests "HOSTID01" = none from rfl] at h2
  simp [Option.isSome] at h2

/-- Claim C4 amended: `hostGuestId` remains a member of the registry in
every state reachable from `createEvent` by guest-link generation, metadata
updates, and `removeGuest` applied to non-host guests; nothing in the actor
prevents `removeGuest` on the host itself, which breaks the invariant. -/
theorem c4_host_registered_unless_removed (store : GuestStore)
    (eventId : String) (request : CreateEventRequest) (hostId now : String)
    (fail : List String) (ops : List EvOp)
    (h : ∀ g t, EvOp.remove g t ∈ ops → g ≠ hostId) :
    hostRegistered (runOps eventId fail
      ((createEvent store eventId request hostId now).1,
       (createEvent store eventId request hostId now).2.1) ops).1 hostId :=
  runOps_hostRegistered eventId fail hostId ops _ h
    (createEvent_hostRegistered store eventId request hostId now)

/-- Witness for the amended C4: a concrete run that generates a guest,
removes that (non-host) guest, and edits the metadata keeps the host
registered. -/
theorem c4_host_registered_unless_removed_witness :
    (∀ g t, EvOp.remove g t ∈
        [EvOp.genLink "GUESTID2" (some "Bob") "t1",
         EvOp.remove "GUESTID2" "t2",
         EvOp.updateMeta (some "picnic") none "t3"] → g ≠ "HOSTID01") ∧
    hostRegistered (runOps "EVENTID1" []
      ((createEvent [] "EVENTID1" ⟨"party", "desc", some "Ann"⟩
          "HOSTID01" "t0").1,
       (createEvent [] "EVENTID1" ⟨"party", "desc", some "Ann"⟩
          "HOSTID01" "t0").2.1)
      [EvOp.genLink "GUESTID2" (some "Bob") "t1",
       EvOp.remove "GUESTID2" "t2",
       EvOp.updateMeta (some "picnic") none "t3"]).1 "HOSTID01" := by
  have hops : ∀ g t, EvOp.remove g t ∈
      [EvOp.genLink "GUESTID2" (some "Bob") "t1",
       EvOp.remove "GUESTID2" "t2",
       EvOp.updateMeta (some "picnic") none "t3"] → g ≠ "HOSTID01" := by
    intro g t hm
    simp only [List.mem_cons, List.not_mem_nil, or_false] at hm
    rcases hm with hm | hm | hm
    · exact absurd hm (by simp)
    · rw [show g = "GUESTID2" by injection hm]
      decide
    · exact absurd hm (by simp)
  exact ⟨hops, c4_host_registered_unless_removed [] "EVENTID1"
    ⟨"party", "desc", some "Ann"⟩ "HOSTID01" "t0" []
    [EvOp.genLink "GUESTID2" (some "Bob") "t1",
     EvOp.remove "GUESTID2" "t2",
     EvOp.updateMeta (some "picnic") none "t3"] hops⟩

/-- Claim C5 (delete endpoint modelled from the spec, the route handler
being absent from the server sources): after deleting a member guest, the
registry no longer contains it, its Guest-DO record is gone,
`getEventGuests` excludes it, and the recomputed cache — served verbatim by
the next aggregate read — counts only the remaining members, so the deleted
guest's prior dates no longer contribute to the heatmap or the counts. -/
theorem c5_delete_guest_excluded (es : EventState) (store : GuestStore)
    (guestId now now' : String) (ed : EventData) (gd : GuestData)
    (hk : ∀ p ∈ es.guests, p.2.id = p.1)
    (hnd : (es.guests.map Prod.fst).Nodup)
    (hgnd : (store.map Prod.fst).Nodup)
    (hev : es.eventData = some ed)
    (hmem : storeGet es.guests guestId = some gd)
    (hsets : ∀ g ∈ (storeDelete es.guests guestId).map Prod.fst,
      ((pollAvail store [] g).getD []).Nodup) :
    storeGet (deleteGuestEndpoint es store [] guestId now).1.guests guestId
      = none ∧
    getGuest (deleteGuestEndpoint es store [] guestId now).2 guestId = none ∧
    (∀ gd' ∈ getEventGuests (deleteGuestEndpoint es store [] guestId now).1,
      gd'.id ≠ guestId) ∧
    guestId ∉ (storeDelete es.guests guestId).map Prod.fst ∧
    ∃ c, (deleteGuestEndpoint es store [] guestId now).1.cache = some c ∧
      c.totalGuests + 1 = es.guests.length ∧
      c.respondedGuests =
        (((storeDelete es.guests guestId).map Prod.fst).filter
          (fun g => ((getGuest store g).bind GuestData.availability).isSome)).length ∧
      (∀ d, hmGetQ c.heatmap d =
        if 0 < c.respondedGuests then
          (((((storeDelete es.guests guestId).map Prod.fst).filter
            (fun g => decide (d ∈ ((getGuest store g).bind
              GuestData.availability).getD []))).length : ℕ) : ℚ)
            / (c.respondedGuests : ℚ)
        else 0) ∧
      getEventAvailability (deleteGuestEndpoint es store [] guestId now).1
        (deleteGuestEndpoint es store [] guestId now).2 [] now'
        = some ⟨c.heatmap, c.totalGuests, c.respondedGuests⟩ := by
  have hdel : (deleteGuestEndpoint es store [] guestId now).1
      = updateAggregateAvailability
        { es with guests := storeDelete es.guests guestId } store [] now := by
    simp [deleteGuestEndpoint, removeGuest, hmem]
  have hguests : (deleteGuestEndpoint es store [] guestId now).1.guests
      = storeDelete es.guests guestId := by
    rw [hdel, updateAgg_guests]
  have hevd : (deleteGuestEndpoint es store [] guestId now).1.eventData
      = some ed := by
    rw [hdel, updateAgg_eventData]
    exact hev
  have hnotmem : guestId ∉ (storeDelete es.guests guestId).map Prod.fst := by
    rw [map_fst_storeDelete]
    intro hmm
    exact ((List.Nodup.mem_erase_iff hnd).mp hmm).1 rfl
  obtain ⟨c, hc, htot, hresp, hhm⟩ := updateAgg_cache
    { es with guests := storeDelete es.guests guestId } store [] now ed hev
  have hcache : (deleteGuestEndpoint es store [] guestId now).1.cache
      = some c := by
    rw [hdel]
    exact hc
  refine ⟨?_, ?_, ?_, hnotmem, c, hcache, ?_, ?_, ?_, ?_⟩
  · rw [hguests]
    exact storeGet_storeDelete_self es.guests guestId hnd
  · exact storeGet_storeDelete_self store guestId hgnd
  · intro gd' hgd'
    unfold getEventGuests at hgd'
    rw [hguests] at hgd'
    obtain ⟨p, hp, rfl⟩ := List.mem_map.mp hgd'
    have hid := hk p (mem_storeDelete hp)
    have hkey : p.1 ≠ guestId := by
      have : p.1 ∈ (storeDelete es.guests guestId).map Prod.fst :=
        List.mem_map_of_mem Prod.fst hp
      rw [map_fst_storeDelete] at this
      exact ((List.Nodup.mem_erase_iff hnd).mp this).1
    rw [hid]
    exact hkey
  · rw [htot]
    exact length_storeDelete es.guests guestId (by rw [hmem]; rfl)
  · rw [hresp]
    simp [pollAvail_nil]
  · intro d
    rw [hhm d, sum_countOn_of_nodup store [] d _ hsets]
    simp [pollAvail_nil]
  · exact getEventAvailability_cached _ _ [] now' c ed hevd hcache

/-- Witness for C5: deleting "GUESTID2" from the concrete four-member
event. -/
theorem c5_delete_guest_excluded_witness :
    (∀ p ∈ fourGuestState.guests, p.2.id = p.1) ∧
    (fourGuestState.guests.map Prod.fst).Nodup ∧
    (fourGuestStore.map Prod.fst).Nodup ∧
    storeGet fourGuestState.guests "GUESTID2" = some guestBob ∧
    (∀ g ∈ remainingGuests.map Prod.fst,
      ((pollAvail fourGuestStore [] g).getD []).Nodup) ∧
    (storeGet (deleteGuestEndpoint fourGuestState fourGuestStore []
        "GUESTID2" "t1").1.guests "GUESTID2" = none ∧
      getGuest (deleteGuestEndpoint fourGuestState fourGuestStore []
        "GUESTID2" "t1").2 "GUESTID2" = none ∧
      (∀ gd' ∈ getEventGuests (deleteGuestEndpoint fourGuestState
        fourGuestStore [] "GUESTID2" "t1").1, gd'.id ≠ "GUESTID2") ∧
      "GUESTID2" ∉ remainingGuests.map Prod.fst ∧
      ∃ c, (deleteGuestEndpoint fourGuestState fourGuestStore []
          "GUESTID2" "t1").1.cache = some c ∧
        c.totalGuests + 1 = fourGuestState.guests.length ∧
        c.respondedGuests = ((remainingGuests.map Prod.fst).filter
          (fun g =>
            ((getGuest fourGuestStore g).bind GuestData.availability).isSome)).length ∧
        (∀ d, hmGetQ c.heatmap d =
          if 0 < c.respondedGuests then
            ((((remainingGuests.map Prod.fst).filter
              (fun g => decide (d ∈ ((getGuest fourGuestStore g).bind
                GuestData.availability).getD []))).length : ℕ) : ℚ)
              / (c.respondedGuests : ℚ)
          else 0) ∧
        getEventAvailability (deleteGuestEndpoint fourGuestState
            fourGuestStore [] "GUESTID2" "t1").1
          (deleteGuestEndpoint fourGuestState fourGuestStore []
            "GUESTID2" "t1").2 [] "t2"
          = some ⟨c.heatmap, c.totalGuests, c.respondedGuests⟩) :=
  ⟨by decide, by decide, by decide, rfl, by decide,
    c5_delete_guest_excluded fourGuestState fourGuestStore "GUESTID2" "t1"
      "t2" ⟨"EVENTID1", "party", "desc", "t0", "t0", some "HOSTID01"⟩ guestBob
      (by decide) (by decide) (by decide) rfl rfl (by decide)⟩

/-- Claim C6 counterexample: immediately after `createEvent`, the event's
durable guests record maps the host id to a full guest snapshot carrying
the host's name — guest content, not a bare id. -/
theorem c6_registry_not_content_free :
    ¬ registryContentFree createdPair.1 := by
  intro h
  have := h ("HOSTID01",
    (⟨"HOSTID01", "EVENTID1", some "Ann", none, "t0", "t0"⟩ : GuestData))
    (by simp [createdPair, createEvent])
  simp at this

/-- Claim C6 amended: the event's durable guests record maps each member id
to a full guest-data snapshot (id, event id, name, availability,
timestamps) written at event creation and at guest-link generation; it does
not hold bare ids. -/
theorem c6_registry_holds_snapshots (store : GuestStore) (eventId : String)
    (request : CreateEventRequest) (hostId now : String) (es es2 : EventState)
    (gstore store2 : GuestStore) (guestId : String) (guestName : Option String)
    (now2 : String) (link : GuestLink)
    (hgen : generateGuestLink es gstore eventId guestId guestName now2
      = some (es2, store2, link)) :
    storeGet (createEvent store eventId request hostId now).1.guests hostId
      = some (⟨hostId, eventId, request.hostName, none, now, now⟩ : GuestData) ∧
    storeGet es2.guests guestId
      = some (⟨guestId, eventId, guestName, none, now2, now2⟩ : GuestData) := by
  constructor
  · simp [createEvent, storeGet]
  · obtain ⟨hev, hgu⟩ := generateGuestLink_some es gstore eventId guestId
      guestName now2 es2 store2 link hgen
    rw [hgu]
    exact storeGet_storePut_self _ _ _

/-- Witness for the amended C6 at a concrete link generation. -/
theorem c6_registry_holds_snapshots_witness :
    generateGuestLink twoGuestState twoGuestStore "EVENTID1" "GUESTID9"
        (some "Zed") "t5"
      = some (linkedState, linkedStore,
          ⟨"GUESTID9", "/event/EVENTID1/guest/GUESTID9"⟩) ∧
    (storeGet (createEvent [] "EVENTID1" ⟨"party", "desc", some "Ann"⟩
        "HOSTID01" "t0").1.guests "HOSTID01"
      = some (⟨"HOSTID01", "EVENTID1", some "Ann", none, "t0", "t0"⟩ :
          GuestData) ∧
    storeGet linkedState.guests "GUESTID9"
      = some (⟨"GUESTID9", "EVENTID1", some "Zed", none, "t5", "t5"⟩ :
          GuestData)) :=
  ⟨by decide,
    c6_registry_holds_snapshots [] "EVENTID1" ⟨"party", "desc", some "Ann"⟩
      "HOSTID01" "t0" twoGuestState linkedState twoGuestStore linkedStore
      "GUESTID9" (some "Zed") "t5"
      ⟨"GUESTID9", "/event/EVENTID1/guest/GUESTID9"⟩ (by decide)⟩

/-- Claim C8 counterexample: with a single member whose read fails (all
member reads fail), the aggregate call still succeeds, producing an empty
heatmap with zero responded guests instead of failing. -/
theorem c8_all_reads_fail_still_succeeds :
    getEventAvailability oneGuestState oneGuestStore ["GUESTID2"] "t1"
      = some ⟨[], 1, 0⟩ ∧
    getEventAvailability oneGuestState oneGuestStore ["GUESTID2"] "t1"
      ≠ none := by
  refine ⟨by decide, ?_⟩
  intro hnone
  rw [show getEventAvailability oneGuestState oneGuestStore ["GUESTID2"] "t1"
      = some ⟨[], 1, 0⟩ by decide] at hnone
  exact Option.noConfusion hnone

/-- Claim C8 amended: a guest whose fan-out read fails is excluded from the
aggregate — the result equals the aggregate over the store with the failing
guests' records dropped — and the aggregate write itself always succeeds,
even when every member read fails. -/
theorem c8_failed_reads_excluded (es : EventState) (store : GuestStore)
    (fail : List String) (now : String) (ed : EventData)
    (h : es.eventData = some ed) :
    updateAggregateAvailability es store fail now
      = updateAggregateAvailability es (storeDropAll store fail) [] now ∧
    ∃ c, (updateAggregateAvailability es store fail now).cache = some c := by
  constructor
  · have hstep : pollStep store fail = pollStep (storeDropAll store fail) [] := by
      funext acc g
      simp [pollStep, pollRead, storeGet_storeDropAll]
    unfold updateAggregateAvailability
    rw [h, hstep]
  · obtain ⟨c, hc, -, -, -⟩ := updateAgg_cache es store fail now ed h
    exact ⟨c, hc⟩

/-- Witness for the amended C8: the one-member event with that member's
read failing. -/
theorem c8_failed_reads_excluded_witness :
    oneGuestState.eventData
      = some ⟨"EVENTID1", "party", "desc", "t0", "t0", some "HOSTID01"⟩ ∧
    (updateAggregateAvailability oneGuestState oneGuestStore ["GUESTID2"] "t1"
      = updateAggregateAvailability oneGuestState
        (storeDropAll oneGuestStore ["GUESTID2"]) [] "t1" ∧
    ∃ c, (updateAggregateAvailability oneGuestState oneGuestStore
      ["GUESTID2"] "t1").cache = some c) :=
  ⟨rfl, c8_failed_reads_excluded oneGuestState oneGuestStore ["GUESTID2"]
    "t1" ⟨"EVENTID1", "party", "desc", "t0", "t0", some "HOSTID01"⟩ rfl⟩

end Sched
